import Mathlib

/-!
Shallow embedding of the HybridProductivityFHE repository:
a Solidity contract (`HybridProductivityFHE.sol`, given as src/unnamed/part_000)
built on the external fhevm library, and the relevant parts of the React
frontend (src/frontend/web/src/App.tsx).

Modelling conventions for the contract:

* `euint32` ciphertext handles are modelled by the inductive `EUint32`:
  the external library is opaque to the contract, which only ever
  creates handles via `FHE.asEuint32` and `FHE.add`, tests them with
  `FHE.isInitialized`, and passes them around.  A Solidity mapping slot
  that was never written holds the zero handle, modelled by
  `EUint32.uninit`; `FHE.isInitialized` is true exactly for non-zero
  handles, modelled by `EUint32.isInit`.
* `bytes32` category hashes (`keccak256(abi.encodePacked(category))`)
  are modelled by `Option String`: `none` is `bytes32(0)` (the mapping
  default) and `some category` is the hash of `category`.  This is the
  standard collision-free abstraction of keccak256; hash equality
  corresponds to string equality.
* `FHE.requestDecryption` returns a request id chosen by the external
  oracle infrastructure; the id is therefore an explicit argument of the
  Lean functions (environment input).  `FHE.checkSignatures` reverts
  inside the external library when the proof material is invalid; it is
  modelled by a boolean environment input `sigOk`, with `false` leading
  to a revert.
* `cleartexts` bytes are modelled already decoded: a `List Nat` for the
  `abi.decode(cleartexts, (uint256[]))` of the metric callback and a
  `Nat` (reduced mod 2^32) for the `abi.decode(cleartexts, (uint32))`
  of the category callback.  Indexing past the end of the decoded array
  is an EVM panic, modelled as a revert.
* A reverted call rolls back every state change (EVM transaction
  semantics): each entry point returns `Except String ContractState`,
  `Except.error msg` meaning the call reverts with message `msg` and the
  pre-state is kept.
* `uint256` arithmetic is checked in Solidity 0.8: `metricCount += 1`
  reverts on overflow at `2 ^ 256`.
* In the source of `requestMetricDecryption` and
  `requestCategoryDecryption` the declaration line of the local
  `ciphers` array is truncated to `bytes32 ;` (evidently
  `bytes32[] memory ciphers = new bytes32[](...)`); the array only
  carries the handles into the external `FHE.requestDecryption` call and
  has no effect on contract storage, so it needs no state in the model.
-/

namespace HybridProductivityFHE

/-- Ciphertext handle model for `euint32`.  `uninit` is the zero handle of a
never-written mapping slot; `asEuint32` and `add` are the only constructors
the contract uses (`FHE.asEuint32`, `FHE.add`). -/
inductive EUint32 where
  | uninit : EUint32
  | asEuint32 (n : Nat) : EUint32
  | add (a b : EUint32) : EUint32
deriving DecidableEq

/-- Model of `FHE.isInitialized`: true exactly for handles distinct from the
zero handle. -/
def EUint32.isInit : EUint32 → Bool
  | .uninit => false
  | _ => true

/-- The `EncryptedMetric` struct of the contract. -/
structure EncryptedMetric where
  id : Nat
  encryptedOutput : EUint32
  encryptedHours : EUint32
  encryptedTasks : EUint32
  timestamp : Nat
deriving DecidableEq

/-- Zero value of `EncryptedMetric`, the content of a never-written
mapping slot. -/
def EncryptedMetric.zero : EncryptedMetric :=
  ⟨0, .uninit, .uninit, .uninit, 0⟩

/-- The `RevealedMetric` struct of the contract. -/
structure RevealedMetric where
  output : Nat
  hoursWorked : Nat
  tasks : Nat
  revealed : Bool
deriving DecidableEq

/-- Zero value of `RevealedMetric`, the content of a never-written
mapping slot. -/
def RevealedMetric.zero : RevealedMetric :=
  ⟨0, 0, 0, false⟩

/-- The events the contract can emit. -/
inductive Event where
  | MetricSubmitted (id ts : Nat)
  | MetricDecryptionRequested (id : Nat)
  | MetricRevealed (id : Nat)
  | CategoryCountDecryptionRequested (category : String)
  | CategoryCountDecrypted (category : String) (count : Nat)
deriving DecidableEq

/-- The full storage of the contract, plus the emitted event log.
Mappings are total functions returning the Solidity zero value on
never-written keys. -/
structure ContractState where
  metricCount : Nat
  encryptedMetrics : Nat → EncryptedMetric
  revealedMetrics : Nat → RevealedMetric
  encryptedTaskCounters : String → EUint32
  taskCategories : List String
  requestToMetricId : Nat → Nat
  requestToCategoryHash : Nat → Option String
  events : List Event

/-- The state of a freshly deployed contract: every storage slot holds its
zero value. -/
def initialState : ContractState where
  metricCount := 0
  encryptedMetrics := fun _ => EncryptedMetric.zero
  revealedMetrics := fun _ => RevealedMetric.zero
  encryptedTaskCounters := fun _ => .uninit
  taskCategories := []
  requestToMetricId := fun _ => 0
  requestToCategoryHash := fun _ => none
  events := []

/-- Pointwise update of a modelled mapping. -/
def mapSet {α : Type} [DecidableEq α] {β : Type} (m : α → β) (k : α) (v : β) :
    α → β :=
  fun x => if x = k then v else m x

/-- Upper bound of `uint256`; Solidity 0.8 checked arithmetic reverts when a
sum reaches it. -/
def uint256Bound : Nat := 2 ^ 256

/-- `submitEncryptedMetric`: increments `metricCount`, stores the new
`EncryptedMetric` under the new id with the current `block.timestamp`
(the argument `ts`), initializes the corresponding `RevealedMetric` to
all zero with `revealed = false`, and emits `MetricSubmitted`. -/
def submitEncryptedMetric (s : ContractState)
    (encryptedOutput encryptedHours encryptedTasks : EUint32) (ts : Nat) :
    Except String ContractState :=
  if s.metricCount + 1 < uint256Bound then
    let newId := s.metricCount + 1
    .ok { s with
      metricCount := newId
      encryptedMetrics := mapSet s.encryptedMetrics newId
        ⟨newId, encryptedOutput, encryptedHours, encryptedTasks, ts⟩
      revealedMetrics := mapSet s.revealedMetrics newId ⟨0, 0, 0, false⟩
      events := s.events ++ [.MetricSubmitted newId ts] }
  else
    .error "panic: arithmetic overflow"

/-- `requestMetricDecryption`: rejects metrics whose revealed flag is already
set, otherwise packs the three stored handles into an oracle decryption
request (request id `reqId`, chosen by the oracle), records the correlation
`requestToMetricId[reqId] = metricId` and emits
`MetricDecryptionRequested`. -/
def requestMetricDecryption (s : ContractState) (metricId reqId : Nat) :
    Except String ContractState :=
  if (s.revealedMetrics metricId).revealed then
    .error "Already revealed"
  else
    .ok { s with
      requestToMetricId := mapSet s.requestToMetricId reqId metricId
      events := s.events ++ [.MetricDecryptionRequested metricId] }

/-- `handleMetricDecryption`: looks up the metric id of the request (zero
meaning unknown), rejects already-revealed metrics, checks the oracle
signatures (environment input `sigOk`), decodes the three plaintexts,
writes them into the `RevealedMetric` and sets `revealed`, then
homomorphically increments the counter of the fixed category
`TaskCategory` (initializing it to an encrypted 0 and pushing the category
name on first use), and emits `MetricRevealed`. -/
def handleMetricDecryption (s : ContractState) (requestId : Nat)
    (cleartexts : List Nat) (sigOk : Bool) : Except String ContractState :=
  let metricId := s.requestToMetricId requestId
  if metricId = 0 then
    .error "Invalid request"
  else if (s.revealedMetrics metricId).revealed then
    .error "Already revealed"
  else if !sigOk then
    .error "invalid KMS signatures"
  else
    match cleartexts with
    | o :: h :: t :: _ =>
      let category := "TaskCategory"
      let counters := s.encryptedTaskCounters
      let counters1 :=
        if (counters category).isInit then counters
        else mapSet counters category (.asEuint32 0)
      let cats1 :=
        if (counters category).isInit then s.taskCategories
        else s.taskCategories ++ [category]
      .ok { s with
        revealedMetrics := mapSet s.revealedMetrics metricId ⟨o, h, t, true⟩
        encryptedTaskCounters := mapSet counters1 category
          (.add (counters1 category) (.asEuint32 1))
        taskCategories := cats1
        events := s.events ++ [.MetricRevealed metricId] }
    | _ => .error "panic: array index out of bounds"

/-- `getRevealedMetric` view function. -/
def getRevealedMetric (s : ContractState) (metricId : Nat) :
    Nat × Nat × Nat × Bool :=
  let r := s.revealedMetrics metricId
  (r.output, r.hoursWorked, r.tasks, r.revealed)

/-- `getEncryptedTaskCounter` view function. -/
def getEncryptedTaskCounter (s : ContractState) (category : String) :
    EUint32 :=
  s.encryptedTaskCounters category

/-- `requestCategoryDecryption`: rejects categories whose encrypted counter
is uninitialized, otherwise requests oracle decryption of the counter
(request id `reqId`), records the correlation
`requestToCategoryHash[reqId] = keccak256(category)` and emits
`CategoryCountDecryptionRequested`. -/
def requestCategoryDecryption (s : ContractState) (category : String)
    (reqId : Nat) : Except String ContractState :=
  if !(s.encryptedTaskCounters category).isInit then
    .error "Category unknown"
  else
    .ok { s with
      requestToCategoryHash := mapSet s.requestToCategoryHash reqId
        (some category)
      events := s.events ++ [.CategoryCountDecryptionRequested category] }

/-- `_categoryFromHash`: linear scan of `taskCategories` for the category
whose keccak256 hash matches; in the hash model this is a scan for the
string itself.  Returns `none` where the contract reverts with
`Category not found`. -/
def categoryFromHash (cats : List String) (h : String) : Option String :=
  cats.find? (fun c => c = h)

/-- `handleCategoryDecryption`: looks up the category hash of the request
(zero meaning unknown), checks the oracle signatures, decodes the `uint32`
count, resolves the hash back to the category name and emits
`CategoryCountDecrypted`.  No storage field is written. -/
def handleCategoryDecryption (s : ContractState) (requestId : Nat)
    (cleartext : Nat) (sigOk : Bool) : Except String ContractState :=
  match s.requestToCategoryHash requestId with
  | none => .error "Unknown request"
  | some hStr =>
    if !sigOk then
      .error "invalid KMS signatures"
    else
      let count := cleartext % 2 ^ 32
      match categoryFromHash s.taskCategories hStr with
      | none => .error "Category not found"
      | some category =>
        .ok { s with
          events := s.events ++ [.CategoryCountDecrypted category count] }

/-- One externally triggered contract call, with all environment inputs
(block timestamp, oracle request ids, decoded cleartexts, signature
validity) made explicit. -/
inductive Op where
  | submit (o h t : EUint32) (ts : Nat)
  | requestMetric (metricId reqId : Nat)
  | handleMetric (requestId : Nat) (cleartexts : List Nat) (sigOk : Bool)
  | requestCategory (category : String) (reqId : Nat)
  | handleCategory (requestId : Nat) (cleartext : Nat) (sigOk : Bool)

/-- Whether an operation is a `handleMetricDecryption` callback. -/
def Op.isHandleMetric : Op → Bool
  | .handleMetric _ _ _ => true
  | _ => false

/-- Dispatch one call to the corresponding entry point. -/
def step (s : ContractState) : Op → Except String ContractState
  | .submit o h t ts => submitEncryptedMetric s o h t ts
  | .requestMetric metricId reqId => requestMetricDecryption s metricId reqId
  | .handleMetric requestId cleartexts sigOk =>
    handleMetricDecryption s requestId cleartexts sigOk
  | .requestCategory category reqId =>
    requestCategoryDecryption s category reqId
  | .handleCategory requestId cleartext sigOk =>
    handleCategoryDecryption s requestId cleartext sigOk

/-- Transaction semantics of one call: a revert rolls every change back, so
the post-state of a reverted call is the pre-state. -/
def applyOp (s : ContractState) (op : Op) : ContractState :=
  match step s op with
  | .ok s1 => s1
  | .error _ => s

/-- Post-state of a sequence of calls. -/
def applyOps (s : ContractState) : List Op → ContractState
  | [] => s
  | op :: rest => applyOps (applyOp s op) rest

/-- Whether a call completes without reverting. -/
def callSucceeds (s : ContractState) (op : Op) : Bool :=
  match step s op with
  | .ok _ => true
  | .error _ => false

/-- Freshness of the oracle-chosen request id of a decryption request: the
fhevm gateway assigns globally unique request ids, so the id returned by
`FHE.requestDecryption` is bound in neither correlation map yet.  Calls
other than the two request entry points take no id from the oracle. -/
def Op.freshFor (s : ContractState) : Op → Prop
  | .requestMetric _ reqId =>
    s.requestToMetricId reqId = 0 ∧ s.requestToCategoryHash reqId = none
  | .requestCategory _ reqId =>
    s.requestToMetricId reqId = 0 ∧ s.requestToCategoryHash reqId = none
  | _ => True

/-- Concrete state used to instantiate theorems: three metrics counted,
metric 3 already revealed (plaintexts 7, 8, 9), decryption request 1
bound to metric 3. -/
def stateRevealed3 : ContractState :=
  { initialState with
    metricCount := 3
    revealedMetrics := mapSet initialState.revealedMetrics 3 ⟨7, 8, 9, true⟩
    requestToMetricId := mapSet initialState.requestToMetricId 1 3 }

/-- Concrete state used to instantiate theorems: the `TaskCategory` counter
holds an encrypted 1, the category list contains `TaskCategory`, and
decryption request 1 is bound to the hash of `TaskCategory`. -/
def stateCatBound : ContractState :=
  { initialState with
    encryptedTaskCounters := mapSet initialState.encryptedTaskCounters
      "TaskCategory" (.add (.asEuint32 0) (.asEuint32 1))
    taskCategories := ["TaskCategory"]
    requestToCategoryHash := mapSet initialState.requestToCategoryHash 1
      (some "TaskCategory") }

/-- Concrete state used to instantiate theorems: one metric submitted and a
decryption request (request id 1) pending for it. -/
def stateReadyReveal : ContractState :=
  applyOps initialState
    [.submit (.asEuint32 1) (.asEuint32 2) (.asEuint32 3) 100,
     .requestMetric 1 1]

/-- Call sequence that reveals metric id 5 before it is ever assigned
(possible because `requestMetricDecryption` has no existence check) and
then submits four metrics, bringing `metricCount` to 4. -/
def earlyRevealOps : List Op :=
  [.requestMetric 5 1, .handleMetric 1 [1, 2, 3] true,
   .submit (.asEuint32 1) (.asEuint32 1) (.asEuint32 1) 1,
   .submit (.asEuint32 1) (.asEuint32 1) (.asEuint32 1) 1,
   .submit (.asEuint32 1) (.asEuint32 1) (.asEuint32 1) 1,
   .submit (.asEuint32 1) (.asEuint32 1) (.asEuint32 1) 1]

/-- Concrete state reached by `earlyRevealOps`: metric id 5 is revealed
although `metricCount` is only 4, so the next submission will assign
id 5 and re-initialize its RevealedMetric. -/
def stateEarlyReveal : ContractState :=
  applyOps initialState earlyRevealOps

section EffectLemmas

lemma mapSet_apply {α : Type} [DecidableEq α] {β : Type} (m : α → β) (k : α)
    (v : β) (x : α) : mapSet m k v x = if x = k then v else m x := rfl

lemma mapSet_same {α : Type} [DecidableEq α] {β : Type} (m : α → β) (k : α)
    (v : β) : mapSet m k v k = v := by simp [mapSet]

lemma mapSet_ne {α : Type} [DecidableEq α] {β : Type} (m : α → β) (k : α)
    (v : β) {x : α} (h : x ≠ k) : mapSet m k v x = m x := by
  simp [mapSet, h]

lemma applyOp_of_error {s : ContractState} {op : Op} {msg : String}
    (h : step s op = .error msg) : applyOp s op = s := by
  simp [applyOp, h]

lemma applyOp_of_ok {s s1 : ContractState} {op : Op}
    (h : step s op = .ok s1) : applyOp s op = s1 := by
  simp [applyOp, h]

lemma submit_step_lt {s : ContractState} (o h t : EUint32) (ts : Nat)
    (hb : s.metricCount + 1 < uint256Bound) :
    step s (.submit o h t ts) = .ok { s with
      metricCount := s.metricCount + 1
      encryptedMetrics := mapSet s.encryptedMetrics (s.metricCount + 1)
        ⟨s.metricCount + 1, o, h, t, ts⟩
      revealedMetrics := mapSet s.revealedMetrics (s.metricCount + 1)
        ⟨0, 0, 0, false⟩
      events := s.events ++ [.MetricSubmitted (s.metricCount + 1) ts] } := by
  simp [step, submitEncryptedMetric, hb]

lemma submit_step_ge {s : ContractState} (o h t : EUint32) (ts : Nat)
    (hb : ¬ s.metricCount + 1 < uint256Bound) :
    step s (.submit o h t ts) = .error "panic: arithmetic overflow" := by
  simp [step, submitEncryptedMetric, hb]

lemma requestMetric_step_revealed {s : ContractState} {metricId : Nat}
    (reqId : Nat) (hc : (s.revealedMetrics metricId).revealed = true) :
    step s (.requestMetric metricId reqId) = .error "Already revealed" := by
  simp [step, requestMetricDecryption, hc]

lemma requestMetric_step_fresh {s : ContractState} {metricId : Nat}
    (reqId : Nat) (hc : (s.revealedMetrics metricId).revealed = false) :
    step s (.requestMetric metricId reqId) = .ok { s with
      requestToMetricId := mapSet s.requestToMetricId reqId metricId
      events := s.events ++ [.MetricDecryptionRequested metricId] } := by
  simp [step, requestMetricDecryption, hc]

lemma requestCategory_step_unknown {s : ContractState} {category : String}
    (reqId : Nat) (hc : (s.encryptedTaskCounters category).isInit = false) :
    step s (.requestCategory category reqId) = .error "Category unknown" := by
  simp [step, requestCategoryDecryption, hc]

lemma requestCategory_step_known {s : ContractState} {category : String}
    (reqId : Nat) (hc : (s.encryptedTaskCounters category).isInit = true) :
    step s (.requestCategory category reqId) = .ok { s with
      requestToCategoryHash := mapSet s.requestToCategoryHash reqId
        (some category)
      events := s.events ++ [.CategoryCountDecryptionRequested category] } := by
  simp [step, requestCategoryDecryption, hc]

lemma handleMetric_step_unknown {s : ContractState} {requestId : Nat}
    (cl : List Nat) (g : Bool) (h0 : s.requestToMetricId requestId = 0) :
    step s (.handleMetric requestId cl g) = .error "Invalid request" := by
  simp [step, handleMetricDecryption, h0]

lemma handleMetric_step_revealed {s : ContractState} {requestId : Nat}
    (cl : List Nat) (g : Bool) (h0 : s.requestToMetricId requestId ≠ 0)
    (h1 : (s.revealedMetrics (s.requestToMetricId requestId)).revealed
      = true) :
    step s (.handleMetric requestId cl g) = .error "Already revealed" := by
  simp [step, handleMetricDecryption, h0, h1]

lemma handleMetric_step_ok_inv {s s1 : ContractState} {requestId : Nat}
    {cl : List Nat} {g : Bool}
    (hok : step s (.handleMetric requestId cl g) = .ok s1) :
    s.requestToMetricId requestId ≠ 0 ∧
    (s.revealedMetrics (s.requestToMetricId requestId)).revealed = false ∧
    g = true ∧
    ∃ o h t rest, cl = o :: h :: t :: rest ∧
      s1 = { s with
        revealedMetrics := mapSet s.revealedMetrics
          (s.requestToMetricId requestId) ⟨o, h, t, true⟩
        encryptedTaskCounters := mapSet
          (if (s.encryptedTaskCounters "TaskCategory").isInit then
            s.encryptedTaskCounters
          else mapSet s.encryptedTaskCounters "TaskCategory" (.asEuint32 0))
          "TaskCategory"
          (.add ((if (s.encryptedTaskCounters "TaskCategory").isInit then
              s.encryptedTaskCounters
            else mapSet s.encryptedTaskCounters "TaskCategory"
              (.asEuint32 0)) "TaskCategory") (.asEuint32 1))
        taskCategories :=
          if (s.encryptedTaskCounters "TaskCategory").isInit then
            s.taskCategories
          else s.taskCategories ++ ["TaskCategory"]
        events := s.events ++
          [.MetricRevealed (s.requestToMetricId requestId)] } := by
  by_cases h0 : s.requestToMetricId requestId = 0
  · simp [step, handleMetricDecryption, h0] at hok
  · by_cases h1 :
      (s.revealedMetrics (s.requestToMetricId requestId)).revealed = true
    · simp [step, handleMetricDecryption, h0, h1] at hok
    · cases g with
      | false => simp [step, handleMetricDecryption, h0, h1] at hok
      | true =>
        match cl with
        | [] => simp [step, handleMetricDecryption, h0, h1] at hok
        | [_] => simp [step, handleMetricDecryption, h0, h1] at hok
        | [_, _] => simp [step, handleMetricDecryption, h0, h1] at hok
        | o :: h :: t :: rest =>
          refine ⟨h0, by simpa using h1, rfl, o, h, t, rest, rfl, ?_⟩
          simp [step, handleMetricDecryption, h0, h1] at hok
          exact hok.symm

lemma handleCategory_step_unknown {s : ContractState} {requestId : Nat}
    (c : Nat) (g : Bool) (hh : s.requestToCategoryHash requestId = none) :
    step s (.handleCategory requestId c g) = .error "Unknown request" := by
  simp [step, handleCategoryDecryption, hh]

lemma handleCategory_step_ok_inv {s s1 : ContractState} {requestId c : Nat}
    {g : Bool} (hok : step s (.handleCategory requestId c g) = .ok s1) :
    ∃ category, s1 = { s with
      events := s.events ++
        [.CategoryCountDecrypted category (c % 2 ^ 32)] } := by
  cases hh : s.requestToCategoryHash requestId with
  | none => simp [step, handleCategoryDecryption, hh] at hok
  | some hs =>
    cases g with
    | false => simp [step, handleCategoryDecryption, hh] at hok
    | true =>
      cases hf : categoryFromHash s.taskCategories hs with
      | none => simp [step, handleCategoryDecryption, hh, hf] at hok
      | some cat =>
        refine ⟨cat, ?_⟩
        simp [step, handleCategoryDecryption, hh, hf] at hok
        exact hok.symm

lemma applyOp_submit_frame (s : ContractState) (o h t : EUint32) (ts : Nat) :
    (applyOp s (.submit o h t ts)).encryptedTaskCounters
      = s.encryptedTaskCounters ∧
    (applyOp s (.submit o h t ts)).taskCategories = s.taskCategories ∧
    (applyOp s (.submit o h t ts)).requestToMetricId = s.requestToMetricId ∧
    (applyOp s (.submit o h t ts)).requestToCategoryHash
      = s.requestToCategoryHash ∧
    s.metricCount ≤ (applyOp s (.submit o h t ts)).metricCount ∧
    (∀ id, id ≤ s.metricCount →
      (applyOp s (.submit o h t ts)).encryptedMetrics id
        = s.encryptedMetrics id) ∧
    (∀ id, ((applyOp s (.submit o h t ts)).revealedMetrics id).revealed = true
      → (s.revealedMetrics id).revealed = true) := by
  by_cases hb : s.metricCount + 1 < uint256Bound
  · rw [applyOp_of_ok (submit_step_lt o h t ts hb)]
    refine ⟨rfl, rfl, rfl, rfl, Nat.le_succ _, ?_, ?_⟩
    · intro id hid
      exact mapSet_ne _ _ _ (by omega)
    · intro id hrev
      dsimp only at hrev
      by_cases hid : id = s.metricCount + 1
      · rw [hid, mapSet_same] at hrev
        simp at hrev
      · rwa [mapSet_ne _ _ _ hid] at hrev
  · rw [applyOp_of_error (submit_step_ge o h t ts hb)]
    exact ⟨rfl, rfl, rfl, rfl, Nat.le_refl _, fun _ _ => rfl, fun _ hr => hr⟩

lemma applyOp_requestMetric_frame (s : ContractState) (mid rid : Nat) :
    (applyOp s (.requestMetric mid rid)).metricCount = s.metricCount ∧
    (applyOp s (.requestMetric mid rid)).encryptedMetrics
      = s.encryptedMetrics ∧
    (applyOp s (.requestMetric mid rid)).revealedMetrics
      = s.revealedMetrics ∧
    (applyOp s (.requestMetric mid rid)).encryptedTaskCounters
      = s.encryptedTaskCounters ∧
    (applyOp s (.requestMetric mid rid)).taskCategories = s.taskCategories ∧
    (applyOp s (.requestMetric mid rid)).requestToCategoryHash
      = s.requestToCategoryHash := by
  by_cases hc : (s.revealedMetrics mid).revealed = true
  · rw [applyOp_of_error (requestMetric_step_revealed rid hc)]
    exact ⟨rfl, rfl, rfl, rfl, rfl, rfl⟩
  · rw [applyOp_of_ok (requestMetric_step_fresh rid (by simpa using hc))]
    exact ⟨rfl, rfl, rfl, rfl, rfl, rfl⟩

lemma applyOp_requestCategory_frame (s : ContractState) (category : String)
    (rid : Nat) :
    (applyOp s (.requestCategory category rid)).metricCount = s.metricCount ∧
    (applyOp s (.requestCategory category rid)).encryptedMetrics
      = s.encryptedMetrics ∧
    (applyOp s (.requestCategory category rid)).revealedMetrics
      = s.revealedMetrics ∧
    (applyOp s (.requestCategory category rid)).encryptedTaskCounters
      = s.encryptedTaskCounters ∧
    (applyOp s (.requestCategory category rid)).taskCategories
      = s.taskCategories ∧
    (applyOp s (.requestCategory category rid)).requestToMetricId
      = s.requestToMetricId := by
  by_cases hc : (s.encryptedTaskCounters category).isInit = true
  · rw [applyOp_of_ok (requestCategory_step_known rid hc)]
    exact ⟨rfl, rfl, rfl, rfl, rfl, rfl⟩
  · rw [applyOp_of_error (requestCategory_step_unknown rid (by simpa using hc))]
    exact ⟨rfl, rfl, rfl, rfl, rfl, rfl⟩

lemma applyOp_handleMetric_frame (s : ContractState) (requestId : Nat)
    (cl : List Nat) (g : Bool) :
    (applyOp s (.handleMetric requestId cl g)).metricCount = s.metricCount ∧
    (applyOp s (.handleMetric requestId cl g)).encryptedMetrics
      = s.encryptedMetrics ∧
    (applyOp s (.handleMetric requestId cl g)).requestToMetricId
      = s.requestToMetricId ∧
    (applyOp s (.handleMetric requestId cl g)).requestToCategoryHash
      = s.requestToCategoryHash := by
  cases hok : step s (.handleMetric requestId cl g) with
  | error msg =>
    rw [applyOp_of_error hok]
    exact ⟨rfl, rfl, rfl, rfl⟩
  | ok s1 =>
    obtain ⟨_, _, _, o, h, t, rest, _, hs1⟩ := handleMetric_step_ok_inv hok
    rw [applyOp_of_ok hok, hs1]
    exact ⟨rfl, rfl, rfl, rfl⟩

lemma applyOp_handleCategory_frame (s : ContractState) (requestId c : Nat)
    (g : Bool) :
    (applyOp s (.handleCategory requestId c g)).metricCount = s.metricCount ∧
    (applyOp s (.handleCategory requestId c g)).encryptedMetrics
      = s.encryptedMetrics ∧
    (applyOp s (.handleCategory requestId c g)).revealedMetrics
      = s.revealedMetrics ∧
    (applyOp s (.handleCategory requestId c g)).encryptedTaskCounters
      = s.encryptedTaskCounters ∧
    (applyOp s (.handleCategory requestId c g)).taskCategories
      = s.taskCategories ∧
    (applyOp s (.handleCategory requestId c g)).requestToMetricId
      = s.requestToMetricId ∧
    (applyOp s (.handleCategory requestId c g)).requestToCategoryHash
      = s.requestToCategoryHash := by
  cases hok : step s (.handleCategory requestId c g) with
  | error msg =>
    rw [applyOp_of_error hok]
    exact ⟨rfl, rfl, rfl, rfl, rfl, rfl, rfl⟩
  | ok s1 =>
    obtain ⟨cat, hs1⟩ := handleCategory_step_ok_inv hok
    rw [applyOp_of_ok hok, hs1]
    exact ⟨rfl, rfl, rfl, rfl, rfl, rfl, rfl⟩

lemma metricCount_mono (s : ContractState) (op : Op) :
    s.metricCount ≤ (applyOp s op).metricCount := by
  cases op with
  | submit o h t ts => exact (applyOp_submit_frame s o h t ts).2.2.2.2.1
  | requestMetric mid rid =>
    exact Nat.le_of_eq (applyOp_requestMetric_frame s mid rid).1.symm
  | handleMetric r cl g =>
    exact Nat.le_of_eq (applyOp_handleMetric_frame s r cl g).1.symm
  | requestCategory cat rid =>
    exact Nat.le_of_eq (applyOp_requestCategory_frame s cat rid).1.symm
  | handleCategory r c g =>
    exact Nat.le_of_eq (applyOp_handleCategory_frame s r c g).1.symm

lemma metricCount_mono_ops (s : ContractState) (ops : List Op) :
    s.metricCount ≤ (applyOps s ops).metricCount := by
  induction ops generalizing s with
  | nil => exact Nat.le_refl _
  | cons op rest ih =>
    exact Nat.le_trans (metricCount_mono s op) (ih (applyOp s op))

lemma encryptedMetrics_frame (s : ContractState) (op : Op) (id : Nat)
    (hid : id ≤ s.metricCount) :
    (applyOp s op).encryptedMetrics id = s.encryptedMetrics id := by
  cases op with
  | submit o h t ts => exact (applyOp_submit_frame s o h t ts).2.2.2.2.2.1 id hid
  | requestMetric mid rid =>
    rw [(applyOp_requestMetric_frame s mid rid).2.1]
  | handleMetric r cl g => rw [(applyOp_handleMetric_frame s r cl g).2.1]
  | requestCategory cat rid =>
    rw [(applyOp_requestCategory_frame s cat rid).2.1]
  | handleCategory r c g => rw [(applyOp_handleCategory_frame s r c g).2.1]

lemma encryptedMetrics_frame_ops (s : ContractState) (ops : List Op)
    (id : Nat) (hid : id ≤ s.metricCount) :
    (applyOps s ops).encryptedMetrics id = s.encryptedMetrics id := by
  induction ops generalizing s with
  | nil => rfl
  | cons op rest ih =>
    rw [show applyOps s (op :: rest) = applyOps (applyOp s op) rest from rfl,
      ih (applyOp s op) (Nat.le_trans hid (metricCount_mono s op)),
      encryptedMetrics_frame s op id hid]

end EffectLemmas

/-- Counterexample for C1: the false-to-true transition of a revealed flag
is not at-most-once.  Since `requestMetricDecryption` has no existence
check, metric id 5 can be revealed while only the zero struct is stored
under it (first transition); the fifth `submitEncryptedMetric` then
assigns id 5 and re-executes the initialization
`revealedMetrics[5] = {0, 0, 0, false}`, resetting the flag from true to
false; a further decryption request and callback for id 5 then perform a
second false-to-true transition of the same flag. -/
theorem revealed_flag_second_transition :
    ((applyOps initialState (earlyRevealOps.take 2)).revealedMetrics
        5).revealed = true ∧
    stateEarlyReveal.metricCount = 4 ∧
    (stateEarlyReveal.revealedMetrics 5).revealed = true ∧
    ((applyOp stateEarlyReveal
        (Op.submit (.asEuint32 1) (.asEuint32 1) (.asEuint32 1) 1)).revealedMetrics
        5).revealed = false ∧
    ((applyOps
        (applyOp stateEarlyReveal
          (Op.submit (.asEuint32 1) (.asEuint32 1) (.asEuint32 1) 1))
        [Op.requestMetric 5 2,
         Op.handleMetric 2 [4, 5, 6] true]).revealedMetrics 5).revealed
      = true := by
  decide

/-- C1 (amended): a decryption callback routed to a metric id whose
revealed flag is already true reverts with `Already revealed` and, by EVM
rollback, leaves the whole contract state unchanged, and no call other
than `handleMetricDecryption` performs the false-to-true transition of a
revealed flag.  The transition is, however, not at-most-once:
`submitEncryptedMetric` unconditionally re-initializes
`revealedMetrics[metricCount + 1]` with `revealed = false`, so an id
revealed before being assigned (possible because
`requestMetricDecryption` lacks an existence check) has its flag reset by
the submission that assigns it, enabling a second false-to-true
transition. -/
theorem revealed_flag_guarded_transition :
    (∀ (s : ContractState) (requestId : Nat) (cleartexts : List Nat)
      (sigOk : Bool),
      s.requestToMetricId requestId ≠ 0 →
      (s.revealedMetrics (s.requestToMetricId requestId)).revealed = true →
      step s (.handleMetric requestId cleartexts sigOk)
        = .error "Already revealed" ∧
      applyOp s (.handleMetric requestId cleartexts sigOk) = s)
    ∧ (∀ (s : ContractState) (op : Op) (id : Nat),
      ((applyOp s op).revealedMetrics id).revealed = true →
      (s.revealedMetrics id).revealed = true ∨
        Op.isHandleMetric op = true)
    ∧ (∀ (s : ContractState) (o h t : EUint32) (ts : Nat),
      s.metricCount + 1 < uint256Bound →
      ((applyOp s (.submit o h t ts)).revealedMetrics
        (s.metricCount + 1)).revealed = false) := by
  refine ⟨?_, ?_, ?_⟩
  · intro s requestId cleartexts sigOk h0 h1
    have hstep := handleMetric_step_revealed cleartexts sigOk h0 h1
    exact ⟨hstep, applyOp_of_error hstep⟩
  · intro s op id
    cases op with
    | submit o h t ts =>
      intro hrev
      exact Or.inl ((applyOp_submit_frame s o h t ts).2.2.2.2.2.2 id hrev)
    | requestMetric mid rid =>
      intro hrev
      rw [(applyOp_requestMetric_frame s mid rid).2.2.1] at hrev
      exact Or.inl hrev
    | handleMetric r cl g =>
      intro _
      exact Or.inr rfl
    | requestCategory cat rid =>
      intro hrev
      rw [(applyOp_requestCategory_frame s cat rid).2.2.1] at hrev
      exact Or.inl hrev
    | handleCategory r c g =>
      intro hrev
      rw [(applyOp_handleCategory_frame s r c g).2.2.1] at hrev
      exact Or.inl hrev
  · intro s o h t ts hb
    rw [applyOp_of_ok (submit_step_lt o h t ts hb)]
    dsimp only
    rw [mapSet_same]

/-- Witness for C1 (amended): in `stateRevealed3` a second callback for the
already-revealed metric 3 reverts and changes nothing, a
`requestMetricDecryption` call leaves the flag of metric 3 where it was,
and the submission assigning id 5 in `stateEarlyReveal` resets the flag
of the prematurely revealed metric 5 to false. -/
theorem revealed_flag_guarded_transition_witness :
    (step stateRevealed3 (Op.handleMetric 1 [] true)
      = Except.error "Already revealed" ∧
     applyOp stateRevealed3 (Op.handleMetric 1 [] true) = stateRevealed3) ∧
    ((stateRevealed3.revealedMetrics 3).revealed = true ∨
      Op.isHandleMetric (Op.requestMetric 2 9) = true) ∧
    ((applyOp stateEarlyReveal
        (Op.submit (.asEuint32 1) (.asEuint32 1) (.asEuint32 1) 1)).revealedMetrics
      (stateEarlyReveal.metricCount + 1)).revealed = false :=
  ⟨revealed_flag_guarded_transition.1 stateRevealed3 1 [] true (by decide)
      (by decide),
   revealed_flag_guarded_transition.2.1 stateRevealed3 (Op.requestMetric 2 9)
      3 (by decide),
   revealed_flag_guarded_transition.2.2 stateEarlyReveal (.asEuint32 1)
      (.asEuint32 1) (.asEuint32 1) 1 (by decide)⟩

/-- Counterexample for C2: in the freshly deployed contract no
EncryptedMetric is stored under id 5 (the slot holds the zero struct and
`metricCount` is 0), yet `requestMetricDecryption(5)` does not revert:
its only guard is the revealed flag, which is still false.  The claim
that requestMetricDecryption rejects decryption requests for ids with no
stored metric is therefore false. -/
theorem unknown_metric_decryption_request_accepted :
    initialState.encryptedMetrics 5 = EncryptedMetric.zero ∧
    initialState.metricCount = 0 ∧
    callSucceeds initialState (Op.requestMetric 5 1) = true := by
  decide

/-- C2 (amended): `requestCategoryDecryption` reverts with
`Category unknown` for every category whose encrypted counter is
uninitialized; `requestMetricDecryption` performs no stored-metric check —
it reverts (`Already revealed`) exactly when the revealed flag of the
requested id is already set, and otherwise accepts the request, including
for ids with no stored EncryptedMetric. -/
theorem decryption_request_guards :
    (∀ (s : ContractState) (category : String) (reqId : Nat),
      (s.encryptedTaskCounters category).isInit = false →
      step s (.requestCategory category reqId) = .error "Category unknown")
    ∧ (∀ (s : ContractState) (metricId reqId : Nat),
      (s.revealedMetrics metricId).revealed = false →
      callSucceeds s (.requestMetric metricId reqId) = true)
    ∧ (∀ (s : ContractState) (metricId reqId : Nat),
      (s.revealedMetrics metricId).revealed = true →
      step s (.requestMetric metricId reqId)
        = .error "Already revealed") := by
  refine ⟨?_, ?_, ?_⟩
  · intro s category reqId hc
    exact requestCategory_step_unknown reqId hc
  · intro s metricId reqId hc
    simp [callSucceeds, requestMetric_step_fresh reqId hc]
  · intro s metricId reqId hc
    exact requestMetric_step_revealed reqId hc

/-- C3: `submitEncryptedMetric` assigns monotonically increasing ids.  A
call from a state where the checked increment does not overflow succeeds,
stores the new EncryptedMetric under id `metricCount + 1` with its `id`
field equal to that value and its RevealedMetric initialized unrevealed;
two successive calls assign ids exactly one apart; and `metricCount`
never decreases over any call sequence, so assigned ids are strictly
increasing. -/
theorem submit_assigns_monotonic_ids :
    (∀ (s : ContractState) (o h t : EUint32) (ts : Nat),
      s.metricCount + 1 < uint256Bound →
      callSucceeds s (.submit o h t ts) = true ∧
      (applyOp s (.submit o h t ts)).metricCount = s.metricCount + 1 ∧
      (applyOp s (.submit o h t ts)).encryptedMetrics (s.metricCount + 1)
        = ⟨s.metricCount + 1, o, h, t, ts⟩ ∧
      (applyOp s (.submit o h t ts)).revealedMetrics (s.metricCount + 1)
        = ⟨0, 0, 0, false⟩)
    ∧ (∀ (s : ContractState) (o1 h1 t1 : EUint32) (ts1 : Nat)
        (o2 h2 t2 : EUint32) (ts2 : Nat),
      s.metricCount + 2 < uint256Bound →
      (applyOp (applyOp s (.submit o1 h1 t1 ts1))
        (.submit o2 h2 t2 ts2)).metricCount = s.metricCount + 2)
    ∧ (∀ (s : ContractState) (ops : List Op),
      s.metricCount ≤ (applyOps s ops).metricCount) := by
  refine ⟨?_, ?_, metricCount_mono_ops⟩
  · intro s o h t ts hb
    have hstep := submit_step_lt o h t ts hb
    have happ := applyOp_of_ok hstep
    refine ⟨by simp [callSucceeds, hstep], by rw [happ], ?_, ?_⟩
    · rw [happ]
      exact mapSet_same _ _ _
    · rw [happ]
      exact mapSet_same _ _ _
  · intro s o1 h1 t1 ts1 o2 h2 t2 ts2 hb
    have hb1 : s.metricCount + 1 < uint256Bound := by omega
    have h1c : (applyOp s (.submit o1 h1 t1 ts1)).metricCount
        = s.metricCount + 1 := by
      rw [applyOp_of_ok (submit_step_lt o1 h1 t1 ts1 hb1)]
    have hb2 : (applyOp s (.submit o1 h1 t1 ts1)).metricCount + 1
        < uint256Bound := by
      rw [h1c]
      omega
    have h2c : (applyOp (applyOp s (.submit o1 h1 t1 ts1))
        (.submit o2 h2 t2 ts2)).metricCount
        = (applyOp s (.submit o1 h1 t1 ts1)).metricCount + 1 := by
      rw [applyOp_of_ok (submit_step_lt o2 h2 t2 ts2 hb2)]
    rw [h2c, h1c]

/-- Witness for C3: the first two submissions from the fresh contract get
ids 1 and 2. -/
theorem submit_assigns_monotonic_ids_witness :
    (callSucceeds initialState
        (Op.submit (.asEuint32 1) (.asEuint32 2) (.asEuint32 3) 100)
      = true ∧
     (applyOp initialState
        (Op.submit (.asEuint32 1) (.asEuint32 2) (.asEuint32 3) 100)).metricCount
      = initialState.metricCount + 1 ∧
     (applyOp initialState
        (Op.submit (.asEuint32 1) (.asEuint32 2) (.asEuint32 3) 100)).encryptedMetrics
        (initialState.metricCount + 1)
      = ⟨initialState.metricCount + 1, .asEuint32 1, .asEuint32 2,
          .asEuint32 3, 100⟩ ∧
     (applyOp initialState
        (Op.submit (.asEuint32 1) (.asEuint32 2) (.asEuint32 3) 100)).revealedMetrics
        (initialState.metricCount + 1)
      = ⟨0, 0, 0, false⟩) ∧
    (applyOp (applyOp initialState
        (Op.submit (.asEuint32 1) (.asEuint32 2) (.asEuint32 3) 100))
        (Op.submit (.asEuint32 4) (.asEuint32 5) (.asEuint32 6) 200)).metricCount
      = initialState.metricCount + 2 ∧
    initialState.metricCount ≤ (applyOps initialState
      [Op.submit (.asEuint32 1) (.asEuint32 2) (.asEuint32 3) 100,
       Op.submit (.asEuint32 4) (.asEuint32 5) (.asEuint32 6) 200]).metricCount :=
  ⟨submit_assigns_monotonic_ids.1 initialState (.asEuint32 1) (.asEuint32 2)
      (.asEuint32 3) 100 (by decide),
   submit_assigns_monotonic_ids.2.1 initialState (.asEuint32 1) (.asEuint32 2)
      (.asEuint32 3) 100 (.asEuint32 4) (.asEuint32 5) (.asEuint32 6) 200
      (by decide),
   submit_assigns_monotonic_ids.2.2 initialState
      [Op.submit (.asEuint32 1) (.asEuint32 2) (.asEuint32 3) 100,
       Op.submit (.asEuint32 4) (.asEuint32 5) (.asEuint32 6) 200]⟩

/-- C4: an EncryptedMetric is immutable once created.  Any single call, and
any call sequence, leaves `encryptedMetrics[id]` unchanged for every id up
to the current `metricCount` (which covers every id already stored, since
ids are only ever assigned as the incremented count); in particular, after
a creating `submitEncryptedMetric` call returns, the stored struct still
holds the submitted handles and timestamp after any further sequence of
contract calls. -/
theorem encrypted_metric_immutable :
    (∀ (s : ContractState) (op : Op) (id : Nat), id ≤ s.metricCount →
      (applyOp s op).encryptedMetrics id = s.encryptedMetrics id)
    ∧ (∀ (s : ContractState) (ops : List Op) (id : Nat),
      id ≤ s.metricCount →
      (applyOps s ops).encryptedMetrics id = s.encryptedMetrics id)
    ∧ (∀ (s : ContractState) (o h t : EUint32) (ts : Nat) (ops : List Op),
      s.metricCount + 1 < uint256Bound →
      (applyOps (applyOp s (.submit o h t ts)) ops).encryptedMetrics
        (s.metricCount + 1) = ⟨s.metricCount + 1, o, h, t, ts⟩) := by
  refine ⟨encryptedMetrics_frame, encryptedMetrics_frame_ops, ?_⟩
  intro s o h t ts ops hb
  have happ := applyOp_of_ok (submit_step_lt o h t ts hb)
  have hcount : (applyOp s (.submit o h t ts)).metricCount
      = s.metricCount + 1 := by
    rw [happ]
  have hle : s.metricCount + 1 ≤ (applyOp s (.submit o h t ts)).metricCount := by
    rw [hcount]
  rw [encryptedMetrics_frame_ops _ ops _ hle, happ]
  exact mapSet_same _ _ _

/-- Witness for C4: metric 1, created by the first submission, is unchanged
by a later submission, a decryption request and its callback. -/
theorem encrypted_metric_immutable_witness :
    (applyOp stateRevealed3 (Op.requestMetric 2 9)).encryptedMetrics 3
      = stateRevealed3.encryptedMetrics 3 ∧
    (applyOps stateRevealed3 [Op.requestMetric 2 9, Op.handleMetric 9 [1, 2, 3] true]).encryptedMetrics 3
      = stateRevealed3.encryptedMetrics 3 ∧
    (applyOps (applyOp initialState
        (Op.submit (.asEuint32 1) (.asEuint32 2) (.asEuint32 3) 100))
        [Op.submit (.asEuint32 4) (.asEuint32 5) (.asEuint32 6) 200,
         Op.requestMetric 1 7]).encryptedMetrics
        (initialState.metricCount + 1)
      = ⟨initialState.metricCount + 1, .asEuint32 1, .asEuint32 2,
          .asEuint32 3, 100⟩ :=
  ⟨encrypted_metric_immutable.1 stateRevealed3 (Op.requestMetric 2 9) 3
      (by decide),
   encrypted_metric_immutable.2.1 stateRevealed3
      [Op.requestMetric 2 9, Op.handleMetric 9 [1, 2, 3] true] 3 (by decide),
   encrypted_metric_immutable.2.2 initialState (.asEuint32 1) (.asEuint32 2)
      (.asEuint32 3) 100
      [Op.submit (.asEuint32 4) (.asEuint32 5) (.asEuint32 6) 200,
       Op.requestMetric 1 7] (by decide)⟩

/-- C5: the request-correlation maps are write-once and never pruned.
Under the freshness the oracle guarantees for newly assigned request ids
(`Op.freshFor`), no call changes an existing non-zero binding of
`requestToMetricId` or an existing binding of `requestToCategoryHash`;
moreover the two callbacks that consume the bindings never write either
map at all, on any request id. -/
theorem request_bindings_write_once :
    (∀ (s : ContractState) (op : Op) (r m : Nat),
      Op.freshFor s op → s.requestToMetricId r = m → m ≠ 0 →
      (applyOp s op).requestToMetricId r = m)
    ∧ (∀ (s : ContractState) (op : Op) (r : Nat) (c : String),
      Op.freshFor s op → s.requestToCategoryHash r = some c →
      (applyOp s op).requestToCategoryHash r = some c)
    ∧ (∀ (s : ContractState) (requestId : Nat) (cl : List Nat) (g : Bool)
        (r : Nat),
      (applyOp s (.handleMetric requestId cl g)).requestToMetricId r
        = s.requestToMetricId r ∧
      (applyOp s (.handleMetric requestId cl g)).requestToCategoryHash r
        = s.requestToCategoryHash r)
    ∧ (∀ (s : ContractState) (requestId c : Nat) (g : Bool) (r : Nat),
      (applyOp s (.handleCategory requestId c g)).requestToMetricId r
        = s.requestToMetricId r ∧
      (applyOp s (.handleCategory requestId c g)).requestToCategoryHash r
        = s.requestToCategoryHash r) := by
  refine ⟨?_, ?_, ?_, ?_⟩
  · intro s op r m hfresh hm hm0
    cases op with
    | submit o h t ts =>
      rw [(applyOp_submit_frame s o h t ts).2.2.1]
      exact hm
    | requestMetric mid rid =>
      have hr : r ≠ rid := by
        intro he
        rw [he, hfresh.1] at hm
        exact hm0 hm.symm
      by_cases hc : (s.revealedMetrics mid).revealed = true
      · rw [applyOp_of_error (requestMetric_step_revealed rid hc)]
        exact hm
      · rw [applyOp_of_ok (requestMetric_step_fresh rid (by simpa using hc))]
        dsimp only
        rw [mapSet_ne _ _ _ hr]
        exact hm
    | handleMetric rq cl g =>
      rw [(applyOp_handleMetric_frame s rq cl g).2.2.1]
      exact hm
    | requestCategory cat rid =>
      rw [(applyOp_requestCategory_frame s cat rid).2.2.2.2.2]
      exact hm
    | handleCategory rq c g =>
      rw [(applyOp_handleCategory_frame s rq c g).2.2.2.2.2.1]
      exact hm
  · intro s op r c hfresh hc
    cases op with
    | submit o h t ts =>
      rw [(applyOp_submit_frame s o h t ts).2.2.2.1]
      exact hc
    | requestMetric mid rid =>
      rw [(applyOp_requestMetric_frame s mid rid).2.2.2.2.2]
      exact hc
    | handleMetric rq cl g =>
      rw [(applyOp_handleMetric_frame s rq cl g).2.2.2]
      exact hc
    | requestCategory cat rid =>
      have hr : r ≠ rid := by
        intro he
        rw [he, hfresh.2] at hc
        exact Option.noConfusion hc
      by_cases hin : (s.encryptedTaskCounters cat).isInit = true
      · rw [applyOp_of_ok (requestCategory_step_known rid hin)]
        dsimp only
        rw [mapSet_ne _ _ _ hr]
        exact hc
      · rw [applyOp_of_error
          (requestCategory_step_unknown rid (by simpa using hin))]
        exact hc
    | handleCategory rq c2 g =>
      rw [(applyOp_handleCategory_frame s rq c2 g).2.2.2.2.2.2]
      exact hc
  · intro s requestId cl g r
    exact ⟨congrFun (applyOp_handleMetric_frame s requestId cl g).2.2.1 r,
      congrFun (applyOp_handleMetric_frame s requestId cl g).2.2.2 r⟩
  · intro s requestId c g r
    exact ⟨congrFun (applyOp_handleCategory_frame s requestId c g).2.2.2.2.2.1 r,
      congrFun (applyOp_handleCategory_frame s requestId c g).2.2.2.2.2.2 r⟩

/-- Witness for C5: the binding of request 1 to metric 3, and the binding
of request 1 to the `TaskCategory` hash, survive a fresh decryption
request and the consuming callbacks. -/
theorem request_bindings_write_once_witness :
    (applyOp stateRevealed3 (Op.requestMetric 2 9)).requestToMetricId 1 = 3 ∧
    (applyOp stateCatBound (Op.requestCategory "TaskCategory" 9)).requestToCategoryHash 1
      = some "TaskCategory" ∧
    ((applyOp stateRevealed3 (Op.handleMetric 1 [4, 5, 6] true)).requestToMetricId 1
        = stateRevealed3.requestToMetricId 1 ∧
      (applyOp stateRevealed3 (Op.handleMetric 1 [4, 5, 6] true)).requestToCategoryHash 1
        = stateRevealed3.requestToCategoryHash 1) ∧
    ((applyOp stateCatBound (Op.handleCategory 1 2 true)).requestToMetricId 1
        = stateCatBound.requestToMetricId 1 ∧
      (applyOp stateCatBound (Op.handleCategory 1 2 true)).requestToCategoryHash 1
        = stateCatBound.requestToCategoryHash 1) :=
  ⟨request_bindings_write_once.1 stateRevealed3 (Op.requestMetric 2 9) 1 3
      ⟨rfl, rfl⟩ (by decide) (by decide),
   request_bindings_write_once.2.1 stateCatBound
      (Op.requestCategory "TaskCategory" 9) 1 "TaskCategory" ⟨rfl, rfl⟩
      (by decide),
   request_bindings_write_once.2.2.1 stateRevealed3 1 [4, 5, 6] true 1,
   request_bindings_write_once.2.2.2 stateCatBound 1 2 true 1⟩

/-- Witness for C2 (amended): concrete instances of the three guards. -/
theorem decryption_request_guards_witness :
    step initialState (Op.requestCategory "Alpha" 2)
      = Except.error "Category unknown" ∧
    callSucceeds initialState (Op.requestMetric 5 1) = true ∧
    step stateRevealed3 (Op.requestMetric 3 2)
      = Except.error "Already revealed" :=
  ⟨decryption_request_guards.1 initialState "Alpha" 2 (by decide),
   decryption_request_guards.2.1 initialState 5 1 (by decide),
   decryption_request_guards.2.2 stateRevealed3 3 2 (by decide)⟩

/-- C9: every successful `handleMetricDecryption` callback, besides writing
the plaintexts, homomorphically adds an encrypted 1 to the counter of the
fixed category `TaskCategory`: if the counter was uninitialized it is
first set to an encrypted 0 and `TaskCategory` is appended to the
category list, and the stored counter becomes the homomorphic sum of the
previous counter (or the fresh encrypted 0) and an encrypted 1; no other
category counter changes.  `submitEncryptedMetric` touches neither the
counters nor the category list, so the increment is coupled to the
reveal, not to the submission. -/
theorem reveal_increments_task_counter :
    (∀ (s s1 : ContractState) (requestId : Nat) (cl : List Nat) (g : Bool),
      step s (.handleMetric requestId cl g) = .ok s1 →
      ((s.encryptedTaskCounters "TaskCategory").isInit = true →
        s1.encryptedTaskCounters "TaskCategory"
          = .add (s.encryptedTaskCounters "TaskCategory") (.asEuint32 1) ∧
        s1.taskCategories = s.taskCategories) ∧
      ((s.encryptedTaskCounters "TaskCategory").isInit = false →
        s1.encryptedTaskCounters "TaskCategory"
          = .add (.asEuint32 0) (.asEuint32 1) ∧
        s1.taskCategories = s.taskCategories ++ ["TaskCategory"]) ∧
      (∀ c, c ≠ "TaskCategory" →
        s1.encryptedTaskCounters c = s.encryptedTaskCounters c))
    ∧ (∀ (s : ContractState) (o h t : EUint32) (ts : Nat),
      (∀ c, (applyOp s (.submit o h t ts)).encryptedTaskCounters c
        = s.encryptedTaskCounters c) ∧
      (applyOp s (.submit o h t ts)).taskCategories = s.taskCategories) := by
  constructor
  · intro s s1 requestId cl g hok
    obtain ⟨h0, h1, hg, o, h, t, rest, hcl, hs1⟩ :=
      handleMetric_step_ok_inv hok
    subst hs1
    refine ⟨?_, ?_, ?_⟩
    · intro hin
      constructor
      · dsimp only
        simp [hin, mapSet_same]
      · dsimp only
        simp [hin]
    · intro hin
      constructor
      · dsimp only
        simp [hin, mapSet_same]
      · dsimp only
        simp [hin]
    · intro c hcne
      dsimp only
      rw [mapSet_ne _ _ _ hcne]
      by_cases hin : (s.encryptedTaskCounters "TaskCategory").isInit = true
      · simp [hin]
      · simp only [Bool.not_eq_true] at hin
        simp [hin, mapSet_ne _ _ _ hcne]
  · intro s o h t ts
    exact ⟨fun c => congrFun (applyOp_submit_frame s o h t ts).1 c,
      (applyOp_submit_frame s o h t ts).2.1⟩

/-- Witness for C9: in `stateReadyReveal` the `TaskCategory` counter is
uninitialized; the successful callback sets it to an encrypted 0 plus an
encrypted 1 and appends the category, while a submission leaves the
counter untouched. -/
theorem reveal_increments_task_counter_witness :
    (applyOp stateReadyReveal
        (Op.handleMetric 1 [4, 5, 6] true)).encryptedTaskCounters
        "TaskCategory"
      = .add (.asEuint32 0) (.asEuint32 1) ∧
    (applyOp stateReadyReveal
        (Op.handleMetric 1 [4, 5, 6] true)).taskCategories
      = stateReadyReveal.taskCategories ++ ["TaskCategory"] ∧
    (applyOp stateReadyReveal
        (Op.submit (.asEuint32 7) (.asEuint32 8) (.asEuint32 9) 300)).encryptedTaskCounters
        "TaskCategory"
      = stateReadyReveal.encryptedTaskCounters "TaskCategory" :=
  ⟨((reveal_increments_task_counter.1 stateReadyReveal
      (applyOp stateReadyReveal (Op.handleMetric 1 [4, 5, 6] true))
      1 [4, 5, 6] true rfl).2.1 (by decide)).1,
   ((reveal_increments_task_counter.1 stateReadyReveal
      (applyOp stateReadyReveal (Op.handleMetric 1 [4, 5, 6] true))
      1 [4, 5, 6] true rfl).2.1 (by decide)).2,
   (reveal_increments_task_counter.2 stateReadyReveal
      (.asEuint32 7) (.asEuint32 8) (.asEuint32 9) 300).1 "TaskCategory"⟩

/-- C10: a successful `handleCategoryDecryption` call modifies no contract
storage: every storage field is unchanged, and the only effect is the
emission of a `CategoryCountDecrypted` event carrying the decoded
count. -/
theorem category_decryption_modifies_no_storage :
    ∀ (s s1 : ContractState) (requestId c : Nat) (g : Bool),
      step s (.handleCategory requestId c g) = .ok s1 →
      s1.metricCount = s.metricCount ∧
      s1.encryptedMetrics = s.encryptedMetrics ∧
      s1.revealedMetrics = s.revealedMetrics ∧
      s1.encryptedTaskCounters = s.encryptedTaskCounters ∧
      s1.taskCategories = s.taskCategories ∧
      s1.requestToMetricId = s.requestToMetricId ∧
      s1.requestToCategoryHash = s.requestToCategoryHash ∧
      ∃ category, s1.events
        = s.events ++ [.CategoryCountDecrypted category (c % 2 ^ 32)] := by
  intro s s1 requestId c g hok
  obtain ⟨cat, hs1⟩ := handleCategory_step_ok_inv hok
  subst hs1
  exact ⟨rfl, rfl, rfl, rfl, rfl, rfl, rfl, cat, rfl⟩

/-- Witness for C10: the successful decryption callback for the
`TaskCategory` counter in `stateCatBound` leaves every storage field
unchanged and only appends the event. -/
theorem category_decryption_modifies_no_storage_witness :
    (applyOp stateCatBound (Op.handleCategory 1 5 true)).metricCount
      = stateCatBound.metricCount ∧
    (applyOp stateCatBound (Op.handleCategory 1 5 true)).encryptedMetrics
      = stateCatBound.encryptedMetrics ∧
    (applyOp stateCatBound (Op.handleCategory 1 5 true)).revealedMetrics
      = stateCatBound.revealedMetrics ∧
    (applyOp stateCatBound (Op.handleCategory 1 5 true)).encryptedTaskCounters
      = stateCatBound.encryptedTaskCounters ∧
    (applyOp stateCatBound (Op.handleCategory 1 5 true)).taskCategories
      = stateCatBound.taskCategories ∧
    (applyOp stateCatBound (Op.handleCategory 1 5 true)).requestToMetricId
      = stateCatBound.requestToMetricId ∧
    (applyOp stateCatBound (Op.handleCategory 1 5 true)).requestToCategoryHash
      = stateCatBound.requestToCategoryHash ∧
    ∃ category,
      (applyOp stateCatBound (Op.handleCategory 1 5 true)).events
        = stateCatBound.events
          ++ [.CategoryCountDecrypted category (5 % 2 ^ 32)] :=
  category_decryption_modifies_no_storage stateCatBound
    (applyOp stateCatBound (Op.handleCategory 1 5 true)) 1 5 true rfl

end HybridProductivityFHE

namespace Frontend

/-!
Model of the frontend record manager (App.tsx).

* On-chain byte blobs (`contract.getData` / `contract.setData`) are
  modelled as `List Nat` byte strings; a never-written key holds `[]`
  (length 0).
* The external JSON layer (`JSON.parse` composed with
  `ethers.toUtf8String`, and the inverse `JSON.stringify` composed with
  `ethers.toUtf8Bytes`) is passed in as function parameters:
  `parseKeys` and `parseRecord` return `none` exactly when `JSON.parse`
  throws, which the code catches; `encodeKeys` and `encodeRecord` model
  stringification, which does not throw.
-/

/-- Byte blobs stored in the generic key-value contract storage. -/
abbrev Bytes := List Nat

/-- The fields of the JSON object written by `submitRecord`
(`recordData` in App.tsx). -/
structure RecordData where
  data : String
  timestamp : Nat
  owner : String
  workType : String
  productivityScore : Int
deriving DecidableEq

/-- The in-memory `ProductivityRecord` built by `loadRecords`. -/
structure ProductivityRecord where
  id : String
  encryptedData : String
  timestamp : Nat
  owner : String
  workType : String
  productivityScore : Int
deriving DecidableEq

/-- `loadRecords`: reads the `record_keys` index, parses it (a parse
failure is caught and leaves the key list empty), then for each key reads
and parses the record blob (a parse failure is caught and skips just that
record), and finally sorts by timestamp descending (the JS comparator
`(a, b) => b.timestamp - a.timestamp`, modelled by the stable
`List.mergeSort` with `b.timestamp ≤ a.timestamp`). -/
def loadRecords (getData : String → Bytes)
    (parseKeys : Bytes → Option (List String))
    (parseRecord : Bytes → Option RecordData) : List ProductivityRecord :=
  let keysBytes := getData "record_keys"
  let keys : List String :=
    if (List.length keysBytes) > 0 then (parseKeys keysBytes).getD [] else []
  let list : List ProductivityRecord := keys.filterMap (fun key =>
    let recordBytes := getData ("record_" ++ key)
    if (List.length recordBytes) > 0 then
      (parseRecord recordBytes).map (fun rd =>
        ⟨key, rd.data, rd.timestamp, rd.owner, rd.workType,
          rd.productivityScore⟩)
    else none)
  list.mergeSort (fun a b => decide (b.timestamp ≤ a.timestamp))

/-- One state-changing contract call issued by the frontend
(`contract.setData(key, value)`). -/
structure SetDataCall where
  key : String
  value : Bytes
deriving DecidableEq

/-- The generic key-value contract storage read by `getData`. -/
def Store := String → Bytes

/-- Apply one `setData` call to the store. -/
def Store.apply (store : Store) (c : SetDataCall) : Store :=
  fun k => if k = c.key then c.value else store k

/-- Apply a sequence of `setData` calls in order. -/
def Store.applyCalls (store : Store) : List SetDataCall → Store
  | [] => store
  | c :: rest => Store.applyCalls (Store.apply store c) rest

/-- The ordered sequence of `setData` calls issued by one `submitRecord`
run, derived from the code: first the record blob is written under
`record_<recordId>`, then `record_keys` is read back from the chain,
parsed (a parse failure is caught and treated as an empty key list),
extended with the new id, and rewritten.  `recordBlob` stands for the
encoded `recordData` object and `recordId` for the generated id. -/
def submitRecordCalls (store : Store) (recordId : String)
    (recordBlob : Bytes) (parseKeys : Bytes → Option (List String))
    (encodeKeys : List String → Bytes) : List SetDataCall :=
  let firstCall : SetDataCall := ⟨"record_" ++ recordId, recordBlob⟩
  let store1 := Store.apply store firstCall
  let keysBytes := store1 "record_keys"
  let keys : List String :=
    if (List.length keysBytes) > 0 then (parseKeys keysBytes).getD [] else []
  let keys1 := keys ++ [recordId]
  [firstCall, ⟨"record_keys", encodeKeys keys1⟩]

/-- The store after a complete `submitRecord` run. -/
def submitRecordRun (store : Store) (recordId : String) (recordBlob : Bytes)
    (parseKeys : Bytes → Option (List String))
    (encodeKeys : List String → Bytes) : Store :=
  Store.applyCalls store
    (submitRecordCalls store recordId recordBlob parseKeys encodeKeys)

/-- C7: `loadRecords` treats JSON parse failures as empty results: a parse
failure of the `record_keys` blob yields the empty record list; a parse
failure of an individual record blob omits exactly that record (no record
of the output carries its key), while every other key whose blob is
nonempty and parses still contributes its record; and `loadRecords` is a
total function, so no parse failure aborts the load. -/
theorem loadRecords_parse_failure_handling :
    (∀ (getData : String → Bytes)
      (parseKeys : Bytes → Option (List String))
      (parseRecord : Bytes → Option RecordData),
      parseKeys (getData "record_keys") = none →
      loadRecords getData parseKeys parseRecord = [])
    ∧ (∀ (getData : String → Bytes)
      (parseKeys : Bytes → Option (List String))
      (parseRecord : Bytes → Option RecordData) (key : String),
      parseRecord (getData ("record_" ++ key)) = none →
      ∀ rec ∈ loadRecords getData parseKeys parseRecord, rec.id ≠ key)
    ∧ (∀ (getData : String → Bytes)
      (parseKeys : Bytes → Option (List String))
      (parseRecord : Bytes → Option RecordData) (key : String)
      (rd : RecordData),
      (List.length (getData "record_keys")) > 0 →
      key ∈ (parseKeys (getData "record_keys")).getD [] →
      (List.length (getData ("record_" ++ key))) > 0 →
      parseRecord (getData ("record_" ++ key)) = some rd →
      (⟨key, rd.data, rd.timestamp, rd.owner, rd.workType,
        rd.productivityScore⟩ : ProductivityRecord)
        ∈ loadRecords getData parseKeys parseRecord) := by
  refine ⟨?_, ?_, ?_⟩
  · intro getData pk pr hnone
    by_cases hl : (List.length (getData "record_keys")) > 0
    · simp [loadRecords, hnone, hl]
    · simp [loadRecords, hl]
  · intro getData pk pr key hnone rec hrec hid
    simp only [loadRecords, List.mem_mergeSort, List.mem_filterMap] at hrec
    obtain ⟨k, hk, hfk⟩ := hrec
    by_cases hl : (List.length (getData ("record_" ++ k))) > 0
    · rw [if_pos hl] at hfk
      cases hpr : pr (getData ("record_" ++ k)) with
      | none => simp [hpr] at hfk
      | some rd =>
        simp only [hpr, Option.map_some'] at hfk
        have hfk2 := Option.some.inj hfk
        subst hfk2
        dsimp only at hid
        subst hid
        rw [hnone] at hpr
        exact Option.noConfusion hpr
    · rw [if_neg hl] at hfk
      exact Option.noConfusion hfk
  · intro getData pk pr key rd hlen hmem hbl hpr
    simp only [loadRecords, List.mem_mergeSort, List.mem_filterMap]
    refine ⟨key, ?_, ?_⟩
    · rw [if_pos hlen]
      exact hmem
    · rw [if_pos hbl, hpr]
      rfl

/-- Witness for C7: with an index naming keys `a` and `b` where the blob of
`b` fails to parse, the load yields the record of `a` and no record of
`b`; with an index blob that fails to parse, the load yields nothing. -/
theorem loadRecords_parse_failure_handling_witness :
    loadRecords (fun _ => [1]) (fun _ => none) (fun _ => none) = [] ∧
    (⟨"a", "FHE-x", 50, "0xabc", "remote", 7⟩ : ProductivityRecord)
      ∈ loadRecords
        (fun k => if k = "record_keys" then [1] else
          if k = "record_a" then [2] else [])
        (fun b => if b = [1] then some ["a", "b"] else none)
        (fun b => if b = [2] then some ⟨"FHE-x", 50, "0xabc", "remote", 7⟩
          else none) ∧
    (⟨"a", "FHE-x", 50, "0xabc", "remote", 7⟩ : ProductivityRecord).id
      ≠ "b" :=
  ⟨loadRecords_parse_failure_handling.1 (fun _ => [1]) (fun _ => none)
      (fun _ => none) rfl,
   loadRecords_parse_failure_handling.2.2
      (fun k => if k = "record_keys" then [1] else
        if k = "record_a" then [2] else [])
      (fun b => if b = [1] then some ["a", "b"] else none)
      (fun b => if b = [2] then some ⟨"FHE-x", 50, "0xabc", "remote", 7⟩
        else none)
      "a" ⟨"FHE-x", 50, "0xabc", "remote", 7⟩ (by decide) (by decide)
      (by decide) (by decide),
   loadRecords_parse_failure_handling.2.1
      (fun k => if k = "record_keys" then [1] else
        if k = "record_a" then [2] else [])
      (fun b => if b = [1] then some ["a", "b"] else none)
      (fun b => if b = [2] then some ⟨"FHE-x", 50, "0xabc", "remote", 7⟩
        else none)
      "b" (by decide)
      ⟨"a", "FHE-x", 50, "0xabc", "remote", 7⟩
      (loadRecords_parse_failure_handling.2.2
        (fun k => if k = "record_keys" then [1] else
          if k = "record_a" then [2] else [])
        (fun b => if b = [1] then some ["a", "b"] else none)
        (fun b => if b = [2] then some ⟨"FHE-x", 50, "0xabc", "remote", 7⟩
          else none)
        "a" ⟨"FHE-x", 50, "0xabc", "remote", 7⟩ (by decide) (by decide)
        (by decide) (by decide))⟩

/-- C8: `submitRecord` writes through two sequential `setData` calls in a
fixed order — first the record blob under `record_<id>`, then the
reread-and-rewritten `record_keys` index — and is not atomic: after only
the first call has executed, the record blob is stored while the key
index is exactly what it was before the run (an orphaned record).  The
complete run extends the parsed previous index with the new id, and
leaves the record blob in place. -/
theorem submitRecord_two_sequential_writes :
    ∀ (store : Store) (recordId : String) (recordBlob : Bytes)
      (pk : Bytes → Option (List String)) (ek : List String → Bytes),
      "record_" ++ recordId ≠ "record_keys" →
      (submitRecordCalls store recordId recordBlob pk ek).map
        SetDataCall.key = ["record_" ++ recordId, "record_keys"] ∧
      Store.applyCalls store
        ((submitRecordCalls store recordId recordBlob pk ek).take 1)
        ("record_" ++ recordId) = recordBlob ∧
      Store.applyCalls store
        ((submitRecordCalls store recordId recordBlob pk ek).take 1)
        "record_keys" = store "record_keys" ∧
      submitRecordRun store recordId recordBlob pk ek "record_keys"
        = ek ((if (List.length (store "record_keys")) > 0
            then (pk (store "record_keys")).getD [] else []) ++ [recordId]) ∧
      submitRecordRun store recordId recordBlob pk ek
        ("record_" ++ recordId) = recordBlob := by
  intro store recordId recordBlob pk ek hne
  have hne' : "record_keys" ≠ "record_" ++ recordId := Ne.symm hne
  refine ⟨rfl, ?_, ?_, ?_, ?_⟩
  · simp [submitRecordCalls, Store.applyCalls, Store.apply]
  · simp [submitRecordCalls, Store.applyCalls, Store.apply, hne']
  · simp [submitRecordRun, submitRecordCalls, Store.applyCalls,
      Store.apply, hne']
  · simp [submitRecordRun, submitRecordCalls, Store.applyCalls,
      Store.apply, hne, hne']

/-- Witness for C8: a concrete run over a store whose index holds the bytes
`[9]` parsed as the key list `["old"]`. -/
theorem submitRecord_two_sequential_writes_witness :
    (submitRecordCalls (fun k => if k = "record_keys" then [9] else [])
        "id1" [1, 2] (fun b => if b = [9] then some ["old"] else none)
        (fun l => [List.length l])).map SetDataCall.key
      = ["record_" ++ "id1", "record_keys"] ∧
    Store.applyCalls (fun k => if k = "record_keys" then [9] else [])
        ((submitRecordCalls (fun k => if k = "record_keys" then [9] else [])
          "id1" [1, 2] (fun b => if b = [9] then some ["old"] else none)
          (fun l => [List.length l])).take 1)
        ("record_" ++ "id1") = [1, 2] ∧
    Store.applyCalls (fun k => if k = "record_keys" then [9] else [])
        ((submitRecordCalls (fun k => if k = "record_keys" then [9] else [])
          "id1" [1, 2] (fun b => if b = [9] then some ["old"] else none)
          (fun l => [List.length l])).take 1)
        "record_keys"
      = (fun k => if k = "record_keys" then [9] else []) "record_keys" ∧
    submitRecordRun (fun k => if k = "record_keys" then [9] else [])
        "id1" [1, 2] (fun b => if b = [9] then some ["old"] else none)
        (fun l => [List.length l]) "record_keys"
      = (fun l => [List.length l])
          ((if (List.length
              ((fun k => if k = "record_keys" then [9] else [])
                "record_keys")) > 0
            then ((fun b => if b = [9] then some ["old"] else none)
              ((fun k => if k = "record_keys" then [9] else [])
                "record_keys")).getD []
            else []) ++ ["id1"]) ∧
    submitRecordRun (fun k => if k = "record_keys" then [9] else [])
        "id1" [1, 2] (fun b => if b = [9] then some ["old"] else none)
        (fun l => [List.length l]) ("record_" ++ "id1") = [1, 2] :=
  submitRecord_two_sequential_writes
    (fun k => if k = "record_keys" then [9] else []) "id1" [1, 2]
    (fun b => if b = [9] then some ["old"] else none)
    (fun l => [List.length l]) (by decide)

end Frontend
